import Mathlib

/-!
Verification of the sec-parser core against its specification.

The development shallowly embeds the relevant parts of the source:
- a model of parsed markup nodes (`Bs4Node`) with `text`, `find_all`, `find`,
  mirroring the structural queries used by the table-metrics extractor;
- `get_single_table` and `get_approx_table_metrics`
  (src/sec_parser/utils/bs4_/approx_table_metrics.py);
- the table-detection elementwise step
  (src/sec_parser/processing_steps/table_parsing_step.py);
- the semantic-tree renderer (src/sec_parser/semantic_tree/render_.py),
  including its Python string-slicing truncation rule.

Python exceptions are modelled with `Except`; Python machine strings are
Lean `String`s; `str.strip()` is `pyStrip`; the regex `\d` test is
`containsDigit` (any decimal-digit character).
-/

/-- A parsed markup node: either an element with a tag name and children,
or a bare string node. Mirrors the bs4 node tree that the source queries. -/
inductive Bs4Node where
  | tag (name : String) (children : List Bs4Node)
  | strNode (s : String)

/-- `node.text`: concatenation of all string descendants, in document order
(bs4's `Tag.text`). -/
def Bs4Node.text : Bs4Node → String
  | .strNode s => s
  | .tag _ children => go children
where
  /-- Concatenated text of a list of sibling nodes. -/
  go : List Bs4Node → String
  | [] => ""
  | c :: rest => c.text ++ go rest

/-- Whether the node is an element with the given tag name. -/
def Bs4Node.hasName (name : String) : Bs4Node → Bool
  | .tag n _ => n == name
  | .strNode _ => false

/-- `node.find_all(name)`: all element descendants (excluding the node
itself) with the given tag name, in document (pre-)order. Mirrors bs4's
`Tag.find_all`. -/
def Bs4Node.find_all (name : String) : Bs4Node → List Bs4Node
  | .strNode _ => []
  | .tag _ children => go children
where
  /-- All matching elements in a sibling list and their subtrees, in
  document order. -/
  go : List Bs4Node → List Bs4Node
  | [] => []
  | c :: rest =>
    (if c.hasName name then [c] else []) ++ Bs4Node.find_all name c ++ go rest

/-- `node.find(name)`: the first matching descendant in document order, or
`none` (bs4's `Tag.find`, which returns `None` when nothing matches). -/
def Bs4Node.find (name : String) (node : Bs4Node) : Option Bs4Node :=
  (node.find_all name).head?

/-- `re.search(r"\d", s)` is truthy iff `s` contains a decimal digit. -/
def containsDigit (s : String) : Bool :=
  s.toList.any Char.isDigit

/-- Python's `str.strip()`: the string with leading and trailing whitespace
removed. -/
def pyStrip (s : String) : String :=
  String.mk (((s.toList.dropWhile Char.isWhitespace).reverse.dropWhile
    Char.isWhitespace).reverse)

/-- The failure modes of the table-metrics extractor: the two typed
precondition errors of `get_single_table`, and the untyped Python
`AttributeError` hit when `row.find("td")` is `None` and `.text` is
dereferenced on it. -/
inductive MetricsError where
  | noTableFound
  | multipleTablesFound
  | attributeErrorNoneType
deriving Repr, DecidableEq

/-- Modelled from the spec: `get_single_table` (imported by
approx_table_metrics.py from sec_parser.utils.bs4_.get_single_table, a file
not in the provided sources). Per spec §4.3/§7 it requires exactly one
reachable table and fails with a distinct "no table found" /
"ambiguous (multiple) table" error otherwise, never guessing. -/
def get_single_table (bs4_tag : Bs4Node) : Except MetricsError Bs4Node :=
  match bs4_tag.find_all "table" with
  | [] => .error .noTableFound
  | [t] => .ok t
  | _ :: _ :: _ => .error .multipleTablesFound

/-- The `ApproxTableMetrics` dataclass of approx_table_metrics.py. -/
structure ApproxTableMetrics where
  rows : Nat
  numbers : Nat
deriving Repr, DecidableEq

/-- One step of the `rows` generator:
`sum(1 for row in table.find_all("tr") if row.find("td").text.strip())`.
When `row.find("td")` is `None`, accessing `.text` raises `AttributeError`. -/
def countRowsStep (acc : Nat) (row : Bs4Node) : Except MetricsError Nat :=
  match row.find "td" with
  | none => .error .attributeErrorNoneType
  | some cell => .ok (if pyStrip cell.text ≠ "" then acc + 1 else acc)

/-- One step of the `numbers` generator:
`sum(bool(re.search(r"\d", cell.text)) for cell in table.find_all("td") if cell.text.strip())`. -/
def countNumbersStep (acc : Nat) (cell : Bs4Node) : Nat :=
  if pyStrip cell.text ≠ "" then acc + (if containsDigit cell.text then 1 else 0) else acc

/-- `get_approx_table_metrics` of approx_table_metrics.py. -/
def get_approx_table_metrics (bs4_tag : Bs4Node) : Except MetricsError ApproxTableMetrics :=
  match get_single_table bs4_tag with
  | .error e => .error e
  | .ok table =>
    match (table.find_all "tr").foldlM countRowsStep 0 with
    | .error e => .error e
    | .ok rows => .ok ⟨rows, (table.find_all "td").foldl countNumbersStep 0⟩

/-- Spec-side predicate: the row's first data cell exists and has non-blank
text after trimming whitespace. -/
def rowHasNonBlankFirstTd (row : Bs4Node) : Bool :=
  match row.find "td" with
  | some cell => !(pyStrip cell.text == "")
  | none => false

/-- Spec-side predicate: a non-blank data cell containing at least one
decimal digit. -/
def cellIsNonBlankWithDigit (cell : Bs4Node) : Bool :=
  (!(pyStrip cell.text == "")) && containsDigit cell.text

/-- A `<td>` data cell holding the given text. -/
def tdCell (s : String) : Bs4Node := .tag "td" [.strNode s]

/-- A `<tr>` table row of data cells holding the given texts. -/
def trRow (cells : List String) : Bs4Node := .tag "tr" (cells.map tdCell)

/-- The table of the spec's test vector: cell grid
`[["1","2"],["","3"],["4","5"]]`. -/
def exampleTable : Bs4Node :=
  .tag "table" [trRow ["1", "2"], trRow ["", "3"], trRow ["4", "5"]]

/-- A wrapper node containing exactly one table. -/
def exampleWrapper : Bs4Node := .tag "div" [exampleTable]

/-- Helper: a successful `rows` fold counts exactly the rows whose first
data cell is non-blank. -/
theorem rowsFold_ok_eq_countP (l : List Bs4Node) :
    ∀ (acc r : Nat), l.foldlM countRowsStep acc = Except.ok r →
      r = acc + l.countP rowHasNonBlankFirstTd := by
  induction l with
  | nil =>
    intro acc r h
    rw [List.foldlM_nil] at h
    have hacc : acc = r := by simpa [pure, Except.pure] using h
    simp [List.countP_nil, hacc]
  | cons row rest ih =>
    intro acc r h
    rw [List.foldlM_cons] at h
    cases hfind : row.find "td" with
    | none =>
      simp only [countRowsStep, hfind] at h
      simp only [Bind.bind, Except.bind] at h
      cases h
    | some cell =>
      simp only [countRowsStep, hfind] at h
      simp only [Bind.bind, Except.bind] at h
      have hrec := ih _ r h
      rw [List.countP_cons]
      simp only [rowHasNonBlankFirstTd, hfind]
      by_cases hblank : pyStrip cell.text = ""
      · simp only [hblank, ne_eq, not_true_eq_false, if_false] at hrec
        simp [hblank, hrec]
      · simp only [hblank, ne_eq, not_false_eq_true, if_true] at hrec
        simp only [hrec]
        simp [hblank]
        omega

/-- Helper: the `numbers` fold counts exactly the non-blank digit-bearing
cells. -/
theorem numbersFold_eq_countP (l : List Bs4Node) :
    ∀ acc : Nat, l.foldl countNumbersStep acc = acc + l.countP cellIsNonBlankWithDigit := by
  induction l with
  | nil => intro acc; simp [List.countP_nil]
  | cons cell rest ih =>
    intro acc
    rw [List.foldl_cons, ih, List.countP_cons]
    simp only [countNumbersStep, cellIsNonBlankWithDigit]
    by_cases hblank : pyStrip cell.text = ""
    · simp [hblank]
    · by_cases hdig : containsDigit cell.text
      · simp [hblank, hdig]; omega
      · simp [hblank, hdig]

/-- Helper: when `get_approx_table_metrics` succeeds on the single table,
both fields are the spec-side counts. -/
theorem metrics_ok_counts (t table : Bs4Node) (m : ApproxTableMetrics)
    (hsingle : get_single_table t = Except.ok table)
    (hmetrics : get_approx_table_metrics t = Except.ok m) :
    m.rows = (table.find_all "tr").countP rowHasNonBlankFirstTd ∧
    m.numbers = (table.find_all "td").countP cellIsNonBlankWithDigit := by
  have hunfold : get_approx_table_metrics t =
      (match (table.find_all "tr").foldlM countRowsStep 0 with
       | Except.error e => Except.error e
       | Except.ok rows =>
         Except.ok ⟨rows, (table.find_all "td").foldl countNumbersStep 0⟩) := by
    rw [get_approx_table_metrics, hsingle]
  rw [hunfold] at hmetrics
  split at hmetrics
  · cases hmetrics
  · next rows hfold =>
      simp only [Except.ok.injEq] at hmetrics
      subst hmetrics
      refine ⟨?_, ?_⟩
      · simpa using rowsFold_ok_eq_countP (table.find_all "tr") 0 rows hfold
      · simpa using numbersFold_eq_countP (table.find_all "td") 0

/-- C1 counterexample: on the grid `[["1","2"],["","3"],["4","5"]]` the
extractor does NOT return `numbers = 4`: the non-blank digit-bearing cells
are "1","2","3","4","5" (the cell "3" of the row with a blank first cell
still counts, because `numbers` ranges over the whole table), so the code
returns `numbers = 5`. -/
theorem numbers_of_example_grid_ne_four :
    (get_approx_table_metrics exampleWrapper).map ApproxTableMetrics.numbers
      ≠ Except.ok 4 := by
  intro h
  rw [show (get_approx_table_metrics exampleWrapper).map ApproxTableMetrics.numbers
      = Except.ok 5 from rfl] at h
  exact absurd (Except.ok.inj h) (by decide)

/-- C1 (amended): whenever `get_approx_table_metrics` succeeds, its
`numbers` field is the count of non-blank data cells across the whole table
that contain at least one decimal digit; on the example grid
`[["1","2"],["","3"],["4","5"]]` that count, and the returned `numbers`,
is 5. -/
theorem numbers_counts_nonblank_digit_cells :
    (∀ (t table : Bs4Node) (m : ApproxTableMetrics),
      get_single_table t = Except.ok table →
      get_approx_table_metrics t = Except.ok m →
      m.numbers = (table.find_all "td").countP cellIsNonBlankWithDigit) ∧
    (get_approx_table_metrics exampleWrapper).map ApproxTableMetrics.numbers
      = Except.ok 5 ∧
    (exampleTable.find_all "td").countP cellIsNonBlankWithDigit = 5 := by
  exact ⟨fun t table m hs hm => (metrics_ok_counts t table m hs hm).2, rfl, rfl⟩

/-- C1 witness: the general characterization applied to the example table. -/
theorem numbers_counts_nonblank_digit_cells_witness :
    (ApproxTableMetrics.mk 2 5).numbers
      = (exampleTable.find_all "td").countP cellIsNonBlankWithDigit :=
  numbers_counts_nonblank_digit_cells.1 exampleWrapper exampleTable ⟨2, 5⟩ rfl rfl

/-- C4: whenever `get_approx_table_metrics` succeeds, its `rows` field is the
count of table rows whose first data cell has non-blank text after trimming;
on rows with first-cell contents `["1","","4"]` it returns `rows = 2`. -/
theorem rows_counts_nonblank_first_cells :
    (∀ (t table : Bs4Node) (m : ApproxTableMetrics),
      get_single_table t = Except.ok table →
      get_approx_table_metrics t = Except.ok m →
      m.rows = (table.find_all "tr").countP rowHasNonBlankFirstTd) ∧
    (get_approx_table_metrics exampleWrapper).map ApproxTableMetrics.rows
      = Except.ok 2 ∧
    (exampleTable.find_all "tr").countP rowHasNonBlankFirstTd = 2 := by
  exact ⟨fun t table m hs hm => (metrics_ok_counts t table m hs hm).1, rfl, rfl⟩

/-- C4 witness: the general characterization applied to the example table. -/
theorem rows_counts_nonblank_first_cells_witness :
    (ApproxTableMetrics.mk 2 5).rows
      = (exampleTable.find_all "tr").countP rowHasNonBlankFirstTd :=
  rows_counts_nonblank_first_cells.1 exampleWrapper exampleTable ⟨2, 5⟩ rfl rfl

/-- C5: `get_approx_table_metrics` fails with the distinct typed error
`noTableFound` when zero tables are reachable and with the distinct typed
error `multipleTablesFound` when more than one is reachable, never guessing;
with exactly one table it returns the `{rows, numbers}` record. -/
theorem extract_metrics_typed_precondition_errors :
    (∀ t : Bs4Node, t.find_all "table" = [] →
      get_approx_table_metrics t = Except.error MetricsError.noTableFound) ∧
    (∀ (t tb1 tb2 : Bs4Node) (rest : List Bs4Node),
      t.find_all "table" = tb1 :: tb2 :: rest →
      get_approx_table_metrics t = Except.error MetricsError.multipleTablesFound) ∧
    MetricsError.noTableFound ≠ MetricsError.multipleTablesFound ∧
    get_approx_table_metrics exampleWrapper = Except.ok ⟨2, 5⟩ := by
  refine ⟨?_, ?_, by decide, rfl⟩
  · intro t h
    rw [get_approx_table_metrics, get_single_table, h]
  · intro t tb1 tb2 rest h
    rw [get_approx_table_metrics, get_single_table, h]

/-- C5 witness: concrete zero-table and two-table inputs produce the two
distinct typed errors. -/
theorem extract_metrics_typed_precondition_errors_witness :
    get_approx_table_metrics (Bs4Node.tag "div" [])
      = Except.error MetricsError.noTableFound ∧
    get_approx_table_metrics
        (Bs4Node.tag "div" [Bs4Node.tag "table" [], Bs4Node.tag "table" []])
      = Except.error MetricsError.multipleTablesFound :=
  ⟨extract_metrics_typed_precondition_errors.1 _ rfl,
   extract_metrics_typed_precondition_errors.2.1 _ _ _ [] rfl⟩

/-- A table whose first row is a header row made only of `<th>` cells. -/
def thHeaderTable : Bs4Node :=
  .tag "table" [.tag "tr" [.tag "th" [.strNode "Header"]], trRow ["1", "2"]]

/-- A wrapper node containing exactly the `<th>`-headed table. -/
def thHeaderWrapper : Bs4Node := .tag "div" [thHeaderTable]

/-- C8: on a table whose first `<tr>` has no `<td>` descendant, the `rows`
computation dereferences a missing first cell (`row.find("td")` is `None`)
and the extractor fails with the untyped attribute error — not with a
metrics record and not with either typed precondition error. -/
theorem th_only_row_raises_attribute_error :
    get_approx_table_metrics thHeaderWrapper
      = Except.error MetricsError.attributeErrorNoneType ∧
    ((thHeaderTable.find_all "tr").head?.map (Bs4Node.find "td")) = some none ∧
    MetricsError.attributeErrorNoneType ≠ MetricsError.noTableFound ∧
    MetricsError.attributeErrorNoneType ≠ MetricsError.multipleTablesFound :=
  ⟨rfl, rfl, by decide, by decide⟩

/-- A markup-node wrapper as seen by processing steps: tag name plus child
wrappers (spec §3 "Node Wrapper", the `HtmlTag` facade). -/
inductive HtmlTag where
  | mk (name : String) (children : List HtmlTag)

/-- The wrapper's tag name. -/
def HtmlTag.tag_name : HtmlTag → String
  | .mk n _ => n

/-- The wrapper's child nodes. -/
def HtmlTag.children : HtmlTag → List HtmlTag
  | .mk _ cs => cs

/-- Modelled from the spec: `HtmlTag.is_unary_tree` (the node-wrapper module
is not in the provided sources). Spec §4.1: true iff, starting at this node,
every node on the path to its unique descendant leaf has exactly zero or one
child — no branching anywhere in the subtree. -/
def HtmlTag.is_unary_tree : HtmlTag → Bool
  | .mk _ [] => true
  | .mk _ [c] => c.is_unary_tree
  | .mk _ (_ :: _ :: _) => false

/-- Modelled from the spec: `HtmlTag.contains_tag name include_self` (the
node-wrapper module is not in the provided sources). Spec §4.1: true iff a
descendant (or the node itself, if `include_self`) has the given tag name. -/
def HtmlTag.contains_tag (name : String) (include_self : Bool) : HtmlTag → Bool
  | .mk n cs => (include_self && (n == name)) || go cs
where
  /-- Whether some node of one of the subtrees has the given tag name. -/
  go : List HtmlTag → Bool
  | [] => false
  | c :: rest => HtmlTag.contains_tag name true c || go rest

/-- All nodes of the wrapper's subtree, itself included. -/
def HtmlTag.subtreeNodes : HtmlTag → List HtmlTag
  | .mk n cs => .mk n cs :: go cs
where
  /-- All nodes of the subtrees of a list of sibling wrappers. -/
  go : List HtmlTag → List HtmlTag
  | [] => []
  | c :: rest => c.subtreeNodes ++ go rest

/-- Spec-side notion of a linear chain: no node anywhere in the subtree has
more than one child. -/
def isLinearChain (t : HtmlTag) : Prop :=
  ∀ m ∈ t.subtreeNodes, m.children.length ≤ 1

/-- Spec-side notion: some node of the subtree (the node itself included)
carries the given tag name. -/
def subtreeContainsTag (name : String) (t : HtmlTag) : Prop :=
  ∃ m ∈ t.subtreeNodes, m.tag_name = name

theorem is_unary_tree_iff : ∀ t : HtmlTag, t.is_unary_tree = true ↔ isLinearChain t
  | .mk n [] => by
    simp [HtmlTag.is_unary_tree, isLinearChain, HtmlTag.subtreeNodes,
      HtmlTag.subtreeNodes.go, HtmlTag.children]
  | .mk n [c] => by
    have ih := is_unary_tree_iff c
    simp only [HtmlTag.is_unary_tree, ih, isLinearChain, HtmlTag.subtreeNodes,
      HtmlTag.subtreeNodes.go, List.append_nil, List.mem_cons, HtmlTag.children]
    constructor
    · rintro h m (rfl | hm)
      · simp [HtmlTag.children]
      · exact h m hm
    · intro h m hm
      exact h m (Or.inr hm)
  | .mk n (a :: b :: rest) => by
    simp only [HtmlTag.is_unary_tree]
    constructor
    · intro h; cases h
    · intro h
      have hroot := h (.mk n (a :: b :: rest)) (by simp [HtmlTag.subtreeNodes])
      simp [HtmlTag.children] at hroot

mutual

theorem contains_tag_iff (name : String) : ∀ t : HtmlTag,
    HtmlTag.contains_tag name true t = true ↔ subtreeContainsTag name t
  | .mk n cs => by
    have hgo := contains_tag_go_iff name cs
    simp only [HtmlTag.contains_tag, Bool.true_and, Bool.or_eq_true, beq_iff_eq, hgo,
      subtreeContainsTag, HtmlTag.subtreeNodes, List.mem_cons]
    constructor
    · rintro (rfl | ⟨m, hm, hname⟩)
      · exact ⟨.mk n cs, Or.inl rfl, rfl⟩
      · exact ⟨m, Or.inr hm, hname⟩
    · rintro ⟨m, (rfl | hm), hname⟩
      · exact Or.inl hname
      · exact Or.inr ⟨m, hm, hname⟩

theorem contains_tag_go_iff (name : String) : ∀ cs : List HtmlTag,
    HtmlTag.contains_tag.go name cs = true ↔
      ∃ m ∈ HtmlTag.subtreeNodes.go cs, m.tag_name = name
  | [] => by simp [HtmlTag.contains_tag.go, HtmlTag.subtreeNodes.go]
  | c :: rest => by
    have h1 := contains_tag_iff name c
    have h2 := contains_tag_go_iff name rest
    simp only [HtmlTag.contains_tag.go, Bool.or_eq_true, h1, h2,
      HtmlTag.subtreeNodes.go, List.mem_append, subtreeContainsTag]
    constructor
    · rintro (⟨m, hm, hname⟩ | ⟨m, hm, hname⟩)
      · exact ⟨m, Or.inl hm, hname⟩
      · exact ⟨m, Or.inr hm, hname⟩
    · rintro ⟨m, (hm | hm), hname⟩
      · exact Or.inl ⟨m, hm, hname⟩
      · exact Or.inr ⟨m, hm, hname⟩

end

/-- The semantic-element variants relevant to the verified components
(spec §3: a closed set of tagged variants), with the originating node
wrapper, the `get_summary()` string and the optional heading `level`
(`0` models an absent / falsy level, as in `getattr(element, "level", "")`). -/
inductive Variant where
  | textElement
  | titleElement
  | tableElement
  | irrelevantElement
  | undeterminedElement
deriving Repr, DecidableEq

/-- `element.__class__.__name__` for each variant. -/
def Variant.className : Variant → String
  | .textElement => "TextElement"
  | .titleElement => "TitleElement"
  | .tableElement => "TableElement"
  | .irrelevantElement => "IrrelevantElement"
  | .undeterminedElement => "UndeterminedElement"

/-- A classified semantic element: variant, originating node wrapper,
summary string and heading level. -/
structure SemanticElement where
  variant : Variant
  html_tag : HtmlTag
  summary : String
  level : Nat

/-- `TableElement.convert_from(element)`: a Table-variant element wrapping
the same node wrapper. -/
def TableElement.convert_from (element : SemanticElement) : SemanticElement :=
  { element with variant := .tableElement }

/-- `TableParsingStep._transform_element` of table_parsing_step.py. -/
def TableParsingStep._transform_element (element : SemanticElement) : SemanticElement :=
  let is_unary := element.html_tag.is_unary_tree
  let contains_table := element.html_tag.contains_tag "table" true
  if is_unary && contains_table then
    TableElement.convert_from element
  else
    element

/-- The chain `outer → inner → table` with no siblings at any level. -/
def chainWrapper : HtmlTag :=
  .mk "outer" [.mk "inner" [.mk "table" []]]

/-- The branching wrapper `outer → [table, paragraph]`. -/
def branchingWrapper : HtmlTag :=
  .mk "outer" [.mk "table" [], .mk "p" []]

/-- C3: the Table Detection step replaces an element with a Table variant
wrapping the same node exactly when the element's wrapper is a linear chain
whose subtree (own node included) carries a table tag, and otherwise leaves
the element unchanged; on a non-Table input element the produced variant is
Table iff that condition holds; the chain `outer → inner → table` is
converted and the branching `outer → [table, paragraph]` is not. -/
theorem table_parsing_step_characterization :
    (∀ e : SemanticElement,
      (isLinearChain e.html_tag ∧ subtreeContainsTag "table" e.html_tag →
        TableParsingStep._transform_element e = TableElement.convert_from e) ∧
      (¬ (isLinearChain e.html_tag ∧ subtreeContainsTag "table" e.html_tag) →
        TableParsingStep._transform_element e = e)) ∧
    (∀ e : SemanticElement, e.variant ≠ Variant.tableElement →
      ((TableParsingStep._transform_element e).variant = Variant.tableElement ↔
        isLinearChain e.html_tag ∧ subtreeContainsTag "table" e.html_tag)) ∧
    (∀ e : SemanticElement,
      (TableParsingStep._transform_element e).html_tag = e.html_tag) ∧
    (∀ e : SemanticElement, e.html_tag = chainWrapper →
      TableParsingStep._transform_element e = TableElement.convert_from e) ∧
    (∀ e : SemanticElement, e.html_tag = branchingWrapper →
      TableParsingStep._transform_element e = e) := by
  have hcond : ∀ e : SemanticElement,
      (e.html_tag.is_unary_tree && e.html_tag.contains_tag "table" true) = true ↔
      isLinearChain e.html_tag ∧ subtreeContainsTag "table" e.html_tag := by
    intro e
    rw [Bool.and_eq_true, is_unary_tree_iff, contains_tag_iff]
  refine ⟨?_, ?_, ?_, ?_, ?_⟩
  · intro e
    constructor
    · intro h
      rw [TableParsingStep._transform_element]
      simp only [(hcond e).mpr h, if_true]
    · intro h
      rw [TableParsingStep._transform_element]
      rw [if_neg (fun hb => h ((hcond e).mp hb))]
  · intro e hvar
    constructor
    · intro h
      by_contra hnot
      rw [TableParsingStep._transform_element,
        if_neg (fun hb => hnot ((hcond e).mp hb))] at h
      exact hvar h
    · intro h
      rw [TableParsingStep._transform_element]
      simp only [(hcond e).mpr h, if_true]
      rfl
  · intro e
    rw [TableParsingStep._transform_element]
    by_cases hb : (e.html_tag.is_unary_tree && e.html_tag.contains_tag "table" true) = true
    · simp only [hb, if_true]; rfl
    · rw [if_neg hb]
  · intro e he
    rw [TableParsingStep._transform_element, he]
    rfl
  · intro e he
    rw [TableParsingStep._transform_element, he]
    rfl

/-- C3 witness: a concrete chain element is converted to the Table variant
and a concrete branching element is left unchanged. -/
theorem table_parsing_step_characterization_witness :
    TableParsingStep._transform_element
        ⟨Variant.undeterminedElement, chainWrapper, "tbl", 0⟩
      = TableElement.convert_from
          ⟨Variant.undeterminedElement, chainWrapper, "tbl", 0⟩ ∧
    TableParsingStep._transform_element
        ⟨Variant.undeterminedElement, branchingWrapper, "mix", 0⟩
      = ⟨Variant.undeterminedElement, branchingWrapper, "mix", 0⟩ :=
  ⟨table_parsing_step_characterization.2.2.2.1 _ rfl,
   table_parsing_step_characterization.2.2.2.2 _ rfl⟩

/-- `DEFAULT_CHAR_DISPLAY_LIMIT` of render_.py. -/
def DEFAULT_CHAR_DISPLAY_LIMIT : Nat := 50

/-- Python slice `s[:i]`, with Python semantics for a negative bound
(counted from the end, clamped at 0). -/
def pySliceTo (s : String) (i : Int) : String :=
  if 0 ≤ i then String.mk (s.toList.take i.toNat)
  else String.mk (s.toList.take (s.toList.length - (-i).toNat))

/-- Python slice `s[i:]`, with Python semantics for a negative start
(counted from the end, clamped at 0). -/
def pySliceFrom (s : String) (i : Int) : String :=
  if 0 ≤ i then String.mk (s.toList.drop i.toNat)
  else String.mk (s.toList.drop (s.toList.length - (-i).toNat))

/-- The truncation of render_.py:
`half_limit = (char_display_limit - 3) // 2` (Python floor division) and
`contents = f"{contents[:half_limit]}...{contents[-half_limit:]}"`, applied
only when `len(contents) > char_display_limit`. -/
def truncateContents (contents : String) (char_display_limit : Nat) : String :=
  if contents.length > char_display_limit then
    let half_limit : Int := Int.fdiv ((char_display_limit : Int) - 3) 2
    pySliceTo contents half_limit ++ "..." ++ pySliceFrom contents (-half_limit)
  else contents

/-- A node of the semantic tree: one semantic element plus ordered child
nodes. -/
inductive TreeNode where
  | mk (semantic_element : SemanticElement) (children : List TreeNode)

/-- The node's semantic element. -/
def TreeNode.semantic_element : TreeNode → SemanticElement
  | .mk e _ => e

/-- The node's children. -/
def TreeNode.children : TreeNode → List TreeNode
  | .mk _ cs => cs

/-- `"\n".join(filter(None, tree_strings))`: join the non-empty strings
with newlines. -/
def joinNonEmpty (tree_strings : List String) : String :=
  String.intercalate "\n" (tree_strings.filter (fun s => !(s == "")))

/-- The body of render_.py's loop for one node of `_nodes`: the entries the
node contributes to `tree_strings` — nothing when its element's variant is
among the ignored types (`continue`), otherwise its own line followed by
the joined string of the recursive call on its children. -/
def renderNode (pretty : Bool) (ignored_types : List Variant) (char_display_limit : Nat) :
    TreeNode → Bool → String → Bool → List String
  | .mk element children, is_last, prefx, is_root =>
    if element.variant ∈ ignored_types then []
    else
      let indent := if !is_last then "├── " else "└── "
      let newPrefx := if !is_last then "│   " else "    "
      let level := if element.level ≠ 0 then
          (if pretty then "\x1b[1;92m" ++ ("[L" ++ toString element.level ++ "]") ++ "\x1b[0m"
           else "[L" ++ toString element.level ++ "]")
        else ""
      let class_name := element.variant.className ++ level
      let contents := truncateContents (pyStrip element.summary) char_display_limit
      let class_name := if pretty then "\x1b[1;34m" ++ class_name ++ "\x1b[0m" else class_name
      let line := if !is_root then prefx ++ indent ++ class_name else class_name
      let line := if contents ≠ "" then line ++ ": " ++ contents else line
      [line, joinNonEmpty
        (go children (prefx ++ (if is_root then prefx else newPrefx)) false)]
where
  /-- The loop of render_.py over `_nodes`: concatenated contributions of
  the nodes, each knowing whether it is last (`i == len(_nodes) - 1`). -/
  go : List TreeNode → String → Bool → List String
  | [], _, _ => []
  | c :: rest, prefx, is_root =>
    renderNode pretty ignored_types char_display_limit c rest.isEmpty prefx is_root
      ++ go rest prefx is_root

/-- `render` of render_.py over a forest of tree nodes, with the argument
defaulting of the source: `pretty` defaults to true when `None`;
`ignored_types` defaults to the Irrelevant variant when `None` or empty
(Python falsy); `char_display_limit` falls back to
`DEFAULT_CHAR_DISPLAY_LIMIT` unless it is a truthy positive int. -/
def render (tree : List TreeNode) (pretty : Option Bool)
    (ignored_types : Option (List Variant)) (char_display_limit : Option Int) : String :=
  let p := match pretty with
    | none => true
    | some b => b
  let ignored := match ignored_types with
    | none => [Variant.irrelevantElement]
    | some [] => [Variant.irrelevantElement]
    | some (v :: vs) => v :: vs
  let limit : Nat := match char_display_limit with
    | some l => if 0 < l then l.toNat else DEFAULT_CHAR_DISPLAY_LIMIT
    | none => DEFAULT_CHAR_DISPLAY_LIMIT
  joinNonEmpty (renderNode.go p ignored limit tree "" true)

/-- An 80-character summary string. -/
def s80 : String := String.mk (List.replicate 80 'a')

/-- A plain wrapper node for renderer examples. -/
def anyTag : HtmlTag := .mk "div" []

/-- A visible text element node with summary "hello". -/
def nodeText : TreeNode := .mk ⟨.textElement, anyTag, "hello", 0⟩ []

/-- An Irrelevant-variant node. -/
def nodeIrr : TreeNode := .mk ⟨.irrelevantElement, anyTag, "skip", 0⟩ []

/-- C2 counterexample: a summary of length 80 displayed with budget 50 is
rendered as a 49-character string, not a 50-character one. -/
theorem truncated_80_at_50_has_length_49_not_50 :
    (truncateContents s80 50).length = 49 ∧ (truncateContents s80 50).length ≠ 50 := by
  decide

/-- C2 (amended): a summary of length 80 with display budget 50 is rendered
as a 23-character prefix, the three-character ellipsis, and a 23-character
suffix — 49 characters in total, one below the budget (Python's
`contents[:23] + "..." + contents[-23:]`). -/
theorem truncate_80_at_50_splits_23_3_23 (s : String) (h : s.length = 80) :
    truncateContents s 50
      = String.mk (s.toList.take 23) ++ "..." ++ String.mk (s.toList.drop 57) ∧
    (truncateContents s 50).length = 49 := by
  have hgt : s.length > 50 := by omega
  have hlist : s.toList.length = 80 := h
  have heq : truncateContents s 50
      = String.mk (s.toList.take 23) ++ "..." ++ String.mk (s.toList.drop 57) := by
    rw [truncateContents, if_pos hgt]
    show pySliceTo s 23 ++ "..." ++ pySliceFrom s (-23) = _
    rw [pySliceTo, if_pos (by decide : (0 : Int) ≤ 23)]
    rw [pySliceFrom, if_neg (by decide : ¬ (0 : Int) ≤ (-23))]
    rw [hlist]
    rfl
  refine ⟨heq, ?_⟩
  rw [heq, String.length_append, String.length_append]
  show (s.toList.take 23).length + 3 + (s.toList.drop 57).length = 49
  rw [List.length_take, List.length_drop, hlist]
  decide

/-- C2 witness: the amended truncation rule evaluated on a concrete
80-character summary. -/
theorem truncate_80_at_50_splits_23_3_23_witness :
    truncateContents s80 50
      = String.mk (s80.toList.take 23) ++ "..." ++ String.mk (s80.toList.drop 57) ∧
    (truncateContents s80 50).length = 49 :=
  truncate_80_at_50_splits_23_3_23 s80 (by decide)

/-- C7 counterexample: with the accepted positive budget 3 (also 1, 2 and 4
behave alike), a long summary is rendered *longer* than the budget: Python's
`(3 - 3) // 2 = 0` makes `contents[-0:]` the whole string, so an
80-character summary renders as 83 characters. -/
theorem truncate_budget_3_exceeds_budget :
    (truncateContents s80 3).length = 83 ∧ ¬ ((truncateContents s80 3).length ≤ 3) := by
  decide

/-- C7 (amended): for every summary and every accepted display budget of at
least 5, the displayed summary has length at most the budget. -/
theorem truncate_within_budget (s : String) (limit : Nat) (h : 5 ≤ limit) :
    (truncateContents s limit).length ≤ limit := by
  by_cases hgt : s.length > limit
  · rw [truncateContents, if_pos hgt]
    have hcast : ((limit : Int) - 3) = ((limit - 3 : Nat) : Int) := by omega
    have hfd : Int.fdiv ((limit : Int) - 3) 2 = (((limit - 3) / 2 : Nat) : Int) := by
      rw [hcast]
      exact (Int.ofNat_fdiv (limit - 3) 2).symm
    rw [hfd]
    show (pySliceTo s (((limit - 3) / 2 : Nat) : Int) ++ "..."
      ++ pySliceFrom s (-(((limit - 3) / 2 : Nat) : Int))).length ≤ limit
    have hk1 : 1 ≤ (limit - 3) / 2 := by omega
    rw [pySliceTo, if_pos (by exact_mod_cast Nat.zero_le _)]
    rw [pySliceFrom, if_neg (by omega)]
    rw [String.length_append, String.length_append]
    show (s.toList.take (Int.toNat ((((limit - 3) / 2 : Nat) : Int)))).length + 3
      + (s.toList.drop (s.toList.length
          - (Int.toNat (-(-(((limit - 3) / 2 : Nat) : Int)))))).length ≤ limit
    rw [neg_neg, Int.toNat_natCast, List.length_take, List.length_drop]
    omega
  · rw [truncateContents, if_neg hgt]
    omega

/-- C7 witness: the amended bound at a concrete summary and budget. -/
theorem truncate_within_budget_witness :
    (truncateContents s80 50).length ≤ 50 :=
  truncate_within_budget s80 50 (by decide)

/-- C6: a node whose element's variant is among the ignored types
contributes nothing to the render output (`continue`): the loop over a list
headed by such a node produces exactly the strings of the remaining nodes, a
list consisting only of such nodes produces no strings at all, and in a
concrete render with the default suppression the Irrelevant element yields
no line. -/
theorem suppressed_elements_produce_no_line :
    (∀ (pretty : Bool) (ignored : List Variant) (limit : Nat)
       (n : TreeNode) (rest : List TreeNode) (prefx : String) (is_root : Bool),
      n.semantic_element.variant ∈ ignored →
      renderNode.go pretty ignored limit (n :: rest) prefx is_root
        = renderNode.go pretty ignored limit rest prefx is_root) ∧
    (∀ (pretty : Bool) (ignored : List Variant) (limit : Nat)
       (nodes : List TreeNode) (prefx : String) (is_root : Bool),
      (∀ n ∈ nodes, n.semantic_element.variant ∈ ignored) →
      renderNode.go pretty ignored limit nodes prefx is_root = []) ∧
    render [nodeText, nodeIrr] (some false) none none = "TextElement: hello" := by
  have hhead : ∀ (pretty : Bool) (ignored : List Variant) (limit : Nat)
      (n : TreeNode) (rest : List TreeNode) (prefx : String) (is_root : Bool),
      n.semantic_element.variant ∈ ignored →
      renderNode.go pretty ignored limit (n :: rest) prefx is_root
        = renderNode.go pretty ignored limit rest prefx is_root := by
    intro pretty ignored limit n rest prefx is_root h
    cases n with
    | mk e cs =>
      simp only [TreeNode.semantic_element] at h
      rw [renderNode.go, renderNode, if_pos h, List.nil_append]
  refine ⟨hhead, ?_, rfl⟩
  intro pretty ignored limit nodes
  induction nodes with
  | nil => intro prefx is_root h; rfl
  | cons n rest ih =>
    intro prefx is_root h
    rw [hhead pretty ignored limit n rest prefx is_root (h n (by simp))]
    exact ih prefx is_root (fun m hm => h m (by simp [hm]))

/-- C6 witness: the loop equations applied to concrete suppressed nodes. -/
theorem suppressed_elements_produce_no_line_witness :
    renderNode.go false [Variant.irrelevantElement] 50 [nodeIrr, nodeText] "" true
      = renderNode.go false [Variant.irrelevantElement] 50 [nodeText] "" true ∧
    renderNode.go false [Variant.irrelevantElement] 50 [nodeIrr] "" true = [] :=
  ⟨suppressed_elements_produce_no_line.1 false _ 50 nodeIrr [nodeText] "" true
      (by decide),
   suppressed_elements_produce_no_line.2.1 false _ 50 [nodeIrr] "" true
      (by decide)⟩

/-- C9: when a node's element is of a suppressed variant, its whole subtree
is skipped: the output does not depend on the node's children at all, and a
suppressed node whose child is a visible text element renders to the empty
string (the child is dropped, not re-parented), while the same child on its
own would render a line. -/
theorem suppressed_subtree_dropped :
    (∀ (pretty : Bool) (ignored : List Variant) (limit : Nat)
       (e : SemanticElement) (cs cs2 : List TreeNode) (rest : List TreeNode)
       (prefx : String) (is_root : Bool),
      e.variant ∈ ignored →
      renderNode.go pretty ignored limit (TreeNode.mk e cs :: rest) prefx is_root
        = renderNode.go pretty ignored limit (TreeNode.mk e cs2 :: rest) prefx is_root) ∧
    render [TreeNode.mk ⟨Variant.irrelevantElement, anyTag, "skip", 0⟩ [nodeText]]
        (some false) none none = "" ∧
    render [nodeText] (some false) none none = "TextElement: hello" := by
  refine ⟨?_, rfl, rfl⟩
  intro pretty ignored limit e cs cs2 rest prefx is_root h
  rw [renderNode.go, renderNode, if_pos h, List.nil_append,
    renderNode.go, renderNode, if_pos h, List.nil_append]

/-- C9 witness: a suppressed node's children can be replaced without
changing the output strings. -/
theorem suppressed_subtree_dropped_witness :
    renderNode.go false [Variant.irrelevantElement] 50
        [TreeNode.mk ⟨Variant.irrelevantElement, anyTag, "skip", 0⟩ [nodeText]] "" true
      = renderNode.go false [Variant.irrelevantElement] 50
        [TreeNode.mk ⟨Variant.irrelevantElement, anyTag, "skip", 0⟩ []] "" true :=
  suppressed_subtree_dropped.1 false _ 50 _ [nodeText] [] [] "" true (by decide)

/-- C10: `render` treats a `None`, zero or negative `char_display_limit`
exactly as the documented default of 50 (`DEFAULT_CHAR_DISPLAY_LIMIT`): the
output is identical to a call with the limit 50. -/
theorem render_defaults_char_display_limit (tree : List TreeNode)
    (pretty : Option Bool) (ignored_types : Option (List Variant))
    (l : Int) (h : l ≤ 0) :
    render tree pretty ignored_types (some l)
      = render tree pretty ignored_types (some 50) ∧
    render tree pretty ignored_types none
      = render tree pretty ignored_types (some 50) := by
  have h1 : (if 0 < l then l.toNat else DEFAULT_CHAR_DISPLAY_LIMIT)
      = DEFAULT_CHAR_DISPLAY_LIMIT := if_neg (by omega)
  constructor
  · simp only [render, h1]
    rfl
  · simp only [render, h1]
    rfl

/-- C10 witness: concrete calls with limit `-7`, `0` and `None` agree with
limit 50. -/
theorem render_defaults_char_display_limit_witness :
    (render [nodeText] none none (some (-7)) = render [nodeText] none none (some 50) ∧
     render [nodeText] none none none = render [nodeText] none none (some 50)) ∧
    render [nodeText] none none (some 0) = render [nodeText] none none (some 50) :=
  ⟨render_defaults_char_display_limit [nodeText] none none (-7) (by decide),
   (render_defaults_char_display_limit [nodeText] none none 0 (by decide)).1⟩
